import Mathlib

/-!
Shallow embedding of the LSP test harness in `tests/system/conftest.py` of
hudson-trading/slang-server, together with proofs and refutations of the
spec's claims about it.

Python strings are modelled as `List Char` (a Python `str` is a sequence of
code points); Python's `text.split("\n")` is `splitLines`; the mutable
per-document and per-protocol state is passed explicitly.
-/

/-- `lsprotocol.types.Position`: a zero-based (line, character) pair. -/
structure Position where
  line : Nat
  character : Nat
deriving DecidableEq, Repr

/-- Python `text.split("\x7bnewline\x7d")` on a `List Char` buffer: always returns at
least one line; the separator characters are consumed and not kept. -/
def splitLines : List Char → List (List Char)
  | [] => [[]]
  | c :: rest =>
    match splitLines rest with
    | [] => [[]]
    | l :: ls => if c = '\n' then [] :: l :: ls else (c :: l) :: ls

/-- Loop body of `SlangDoc.positionFromOffset`: walk the lines with the running
line index and the remaining offset; return `(lineNo, offset)` when the
remaining offset is strictly below the current line's length, otherwise
subtract the line's length (the source does NOT subtract the newline
terminator) and continue; when the loop exhausts the lines, Python leaves
`character = 0` and the last index in `_line_no`.  The `[]` case is
unreachable from `positionFromOffset` because `splitLines` never returns
an empty list. -/
def posFromOffsetLoop : Nat → Nat → List (List Char) → Position
  | lineNo, _, [] => ⟨lineNo, 0⟩
  | lineNo, off, [l] => if off < l.length then ⟨lineNo, off⟩ else ⟨lineNo, 0⟩
  | lineNo, off, l :: l2 :: ls =>
    if off < l.length then ⟨lineNo, off⟩
    else posFromOffsetLoop (lineNo + 1) (off - l.length) (l2 :: ls)

/-- `SlangDoc.positionFromOffset(offset)`: split the buffer on newlines and run
the loop from line 0. -/
def positionFromOffset (text : List Char) (offset : Nat) : Position :=
  posFromOffsetLoop 0 offset (splitLines text)

/-- Modelled from the spec: position→offset conversion used by the spec's
round-trip property — sum the lengths of the lines preceding the position's
line, plus one terminator per preceding line, then add the character
column.  (The source has no explicit inverse; this is the reference
conversion the claim compares against.) -/
def offsetFromPositionSpec (lines : List (List Char)) (p : Position) : Nat :=
  ((lines.take p.line).map (fun l => l.length + 1)).sum + p.character

/-! ## Document model: `SlangDoc` / `SlangClient.openText` -/

/-- Mutable state of a `SlangDoc`: the shadow text buffer and the `next_version`
counter (`self.next_version`). -/
structure SlangDocState where
  text : List Char
  next_version : Nat
deriving DecidableEq, Repr

/-- `SlangClient.openText(uri, text)`: sends `textDocument/didOpen` whose
`TextDocumentItem` carries `version=0` and constructs the `SlangDoc`, whose
`__init__` sets `next_version = 1`.  Returns the version carried by the open
notification together with the fresh document state. -/
def openText (text : List Char) : Nat × SlangDocState :=
  (0, { text := text, next_version := 1 })

/-- `SlangDoc.onChange(changes)`: sends `textDocument/didChange` whose
`VersionedTextDocumentIdentifier` carries `version = self.next_version`, then
increments `next_version`.  Returns the new state together with the version
carried by the change notification. -/
def onChange (d : SlangDocState) : SlangDocState × Nat :=
  ({ d with next_version := d.next_version + 1 }, d.next_version)

/-- Run `n` successive `onChange` calls, collecting the version number each
change notification carried, in order. -/
def runChanges : SlangDocState → Nat → SlangDocState × List Nat
  | d, 0 => (d, [])
  | d, n + 1 =>
    let r := onChange d
    let rest := runChanges r.1 n
    (rest.1, r.2 :: rest.2)

/-! ## TestFixture: the `client` pytest fixture -/

/-- Which of the three release calls of the `client` fixture would succeed if
attempted (an already-crashed server typically makes `shutdown_async` raise). -/
structure ReleaseBehavior where
  shutdownOk : Bool
  exitOk : Bool
  stopOk : Bool
deriving DecidableEq, Repr

/-- The code after `yield client` in the `client` fixture, translated with
Python exception propagation: `await client.shutdown_async(None)`, then
`client.exit(None)`, then `await client.stop()`, as a plain sequence with no
`try`/`finally`.  Returns the list of steps that were attempted, in order,
and whether the whole release ran to completion without an exception. -/
def fixtureRelease (b : ReleaseBehavior) : List String × Bool :=
  if b.shutdownOk = false then (["shutdown"], false)
  else if b.exitOk = false then (["shutdown", "exit"], false)
  else if b.stopOk = false then (["shutdown", "exit", "stop"], false)
  else (["shutdown", "exit", "stop"], true)

/-- Teardown of the `client` fixture as pytest-asyncio drives it: after the
test body finishes — whether it returned normally (`bodyRaised = false`) or
raised (`bodyRaised = true`) — the generator is resumed past `yield` and the
release code runs; the source inspects nothing about the body's outcome. -/
def fixtureTeardown (bodyRaised : Bool) (b : ReleaseBehavior) : List String × Bool :=
  fixtureRelease b

/-! ## Protocol model: `LanguageClientProtocol`

`self._notification_futures` is a Python dict from method name to a
`concurrent.futures.Future`; we model futures by numeric identities handed
out by a counter (`nextId`), the dict by an association list with unique
keys, and a future's fate by membership in `resolved` (its `set_result`
value) or `failed` (completed with an exception — no code in the repository
ever does this to a notification future, so nothing appends to `failed`).
`cancels` records the ids forwarded to the base protocol's
`_handle_cancel_notification`, and `handled` the `(method, params)` pairs
passed to `_execute_notification` for a registered handler. -/

/-- `lsprotocol` notification params, abstracted: `id` is the field read by
the `$/cancelRequest` branch (`params.id`); `payload` stands for the rest of
the parameter record. -/
structure Params where
  id : Nat
  payload : Nat
deriving DecidableEq, Repr

def CANCEL_REQUEST : String := "$/cancelRequest"

def TEXT_DOCUMENT_PUBLISH_DIAGNOSTICS : String := "textDocument/publishDiagnostics"

def WINDOW_SHOW_MESSAGE : String := "window/showMessage"

def WINDOW_LOG_MESSAGE : String := "window/logMessage"

/-- Dict lookup on an association list (first matching key, as in a Python
dict with unique keys). -/
def lookupAssoc : List (String × Nat) → String → Option Nat
  | [], _ => none
  | (k, v) :: rest, m => if k = m then some v else lookupAssoc rest m

/-- Effect of Python's `dict.pop(m, None)` on the entries: the first entry for
`m` is removed (with unique keys, the only one). -/
def removeAssoc : List (String × Nat) → String → List (String × Nat)
  | [], _ => []
  | (k, v) :: rest, m => if k = m then rest else (k, v) :: removeAssoc rest m

/-- Python's `dict[m] = v`: overwrite the entry for `m` if present, else
append a new one. -/
def setAssoc : List (String × Nat) → String → Nat → List (String × Nat)
  | [], m, v => [(m, v)]
  | (k, w) :: rest, m, v => if k = m then (m, v) :: rest else (k, w) :: setAssoc rest m v

/-- State of a `LanguageClientProtocol` instance, as observed through the
operations the claims are about. -/
structure ProtoState where
  notification_futures : List (String × Nat)
  nextId : Nat
  resolved : List (Nat × Params)
  failed : List Nat
  cancels : List Nat
  handlers : List String
  handled : List (String × Params)
deriving DecidableEq, Repr

/-- Middle of `_handle_notification`: `future =
self._notification_futures.pop(method_name, None)` followed by `if future:
future.set_result(params)` — the entry for the method, if any, is removed
from the dict and its future is resolved with exactly `params`. -/
def resolveWaiter (s : ProtoState) (method : String) (params : Params) : ProtoState :=
  match lookupAssoc s.notification_futures method with
  | some fid =>
    { s with
        notification_futures := removeAssoc s.notification_futures method,
        resolved := s.resolved ++ [(fid, params)] }
  | none => { s with notification_futures := removeAssoc s.notification_futures method }

/-- Tail of `_handle_notification`: `handler = self._get_handler(method_name)`
then `self._execute_notification(handler, params)` inside a `try` — when a
handler is registered it runs with the same `params`; a missing handler
(`KeyError` / `JsonRpcMethodNotFound`) is caught and logged as a warning, and
a handler exception is caught and logged, so this stage never raises and
never touches the futures dict. -/
def execHandler (s : ProtoState) (method : String) (params : Params) : ProtoState :=
  if s.handlers.contains method then { s with handled := s.handled ++ [(method, params)] }
  else s

/-- `LanguageClientProtocol._handle_notification(method_name, params)`:
`$/cancelRequest` is routed to `self._handle_cancel_notification(params.id)`
and the method returns at once; every other notification first resolves the
pending waiter, if any, then invokes the regular handler. -/
def handle_notification (s : ProtoState) (method : String) (params : Params) : ProtoState :=
  if method = CANCEL_REQUEST then
    { s with cancels := s.cancels ++ [params.id] }
  else
    execHandler (resolveWaiter s method params) method params

/-- `LanguageClientProtocol.wait_for_notification(method)`: create a fresh
`Future` and store it at `self._notification_futures[method]`, overwriting
any previous entry; return the fresh future (its identity). -/
def wait_for_notification (s : ProtoState) (method : String) : ProtoState × Nat :=
  let fid := s.nextId
  ({ s with
      nextId := fid + 1,
      notification_futures := setAssoc s.notification_futures method fid },
    fid)

/-- No code in the repository completes or fails entries of
`_notification_futures` when the server process terminates: the dict is
touched only by `_handle_notification` (pop then `set_result`) and
`wait_for_notification` (insert), and neither runs at process exit, so
termination leaves the protocol's notification-future state unchanged. -/
def onProcessTermination (s : ProtoState) : ProtoState := s

/-- One observable operation on the protocol state. -/
inductive Op where
  | wait (method : String)
  | notify (method : String) (params : Params)
deriving DecidableEq, Repr

def runOp (s : ProtoState) : Op → ProtoState
  | Op.wait m => (wait_for_notification s m).1
  | Op.notify m p => handle_notification s m p

def runOps (s : ProtoState) (ops : List Op) : ProtoState :=
  ops.foldl runOp s

/-- Well-formedness of a protocol state, maintained by every operation from
the initial state: dict keys are unique (it is a Python dict); every stored
future id, and every id already resolved, was handed out by the counter; and
distinct dict entries hold distinct futures (each `wait_for_notification`
creates a fresh `Future` object). -/
def WF (s : ProtoState) : Prop :=
  (s.notification_futures.map Prod.fst).Nodup
    ∧ (s.notification_futures.map Prod.snd).Nodup
    ∧ (∀ q ∈ s.notification_futures, q.2 < s.nextId)
    ∧ (∀ q ∈ s.resolved, q.1 < s.nextId)

/-- A future id that is no longer stored in the dict, has not been resolved,
and is strictly below the allocation counter.  Such a future can never be
resolved again: resolution only happens to ids popped out of the dict, and
every future created later is a fresh object with a larger id. -/
def Abandoned (f : Nat) (s : ProtoState) : Prop :=
  f ∉ s.notification_futures.map Prod.snd
    ∧ f ∉ s.resolved.map Prod.fst
    ∧ f < s.nextId

/-- `LanguageClientProtocol.__init__`: the futures dict starts empty.  The
base `LanguageServerProtocol` registers built-in features only for the
server-bound lifecycle and document-sync methods; the repository registers
no feature of its own, so in particular no handler exists for
`textDocument/publishDiagnostics`, `window/showMessage` or
`window/logMessage`. -/
def initialProto : ProtoState :=
  { notification_futures := []
    nextId := 0
    resolved := []
    failed := []
    cancels := []
    handlers := ["initialize", "initialized", "shutdown", "exit", "$/setTrace",
                 "textDocument/didOpen", "textDocument/didChange", "textDocument/didClose"]
    handled := [] }

/-! ## Client model: `SlangClient` -/

/-- State of a `SlangClient`: the protocol state plus the three logs declared
in `SlangClient.__init__` (`self.diagnostics`, `self.messages`,
`self.log_messages`).  Diagnostics are abstracted to `Nat`. -/
structure SlangClientState where
  proto : ProtoState
  diagnostics : List (String × List Nat)
  messages : List Params
  log_messages : List Params
deriving DecidableEq, Repr

/-- `SlangClient.__init__`: the three logs start empty. -/
def initialClient : SlangClientState :=
  { proto := initialProto, diagnostics := [], messages := [], log_messages := [] }

/-- Notification dispatch as seen by a `SlangClient`: the protocol's
`_handle_notification` runs; since the repository registers no feature
handler that writes `diagnostics`, `messages` or `log_messages`, no code
path of dispatch touches those attributes. -/
def clientHandleNotification (c : SlangClientState) (method : String) (p : Params) :
    SlangClientState :=
  { c with proto := handle_notification c.proto method p }

/-! ## Dictionary lemmas -/

theorem lookupAssoc_setAssoc_self (l : List (String × Nat)) (m : String) (v : Nat) :
    lookupAssoc (setAssoc l m v) m = some v := by
  induction l with
  | nil => simp [setAssoc, lookupAssoc]
  | cons q rest ih =>
    obtain ⟨k, w⟩ := q
    by_cases hk : k = m
    · simp [setAssoc, lookupAssoc, hk]
    · simp [setAssoc, lookupAssoc, hk, ih]

theorem setAssoc_setAssoc (l : List (String × Nat)) (m : String) (v w : Nat) :
    setAssoc (setAssoc l m v) m w = setAssoc l m w := by
  induction l with
  | nil => simp [setAssoc]
  | cons q rest ih =>
    obtain ⟨k, u⟩ := q
    by_cases hk : k = m
    · simp [setAssoc, hk]
    · simp [setAssoc, hk, ih]

theorem keys_setAssoc (l : List (String × Nat)) (m : String) (v : Nat) :
    (setAssoc l m v).map Prod.fst =
      if m ∈ l.map Prod.fst then l.map Prod.fst else l.map Prod.fst ++ [m] := by
  induction l with
  | nil => simp [setAssoc]
  | cons q rest ih =>
    obtain ⟨k, u⟩ := q
    by_cases hk : k = m
    · subst hk
      simp [setAssoc]
    · by_cases hm : m ∈ rest.map Prod.fst
      · rw [if_pos hm] at ih
        simp only [setAssoc, if_neg hk, List.map_cons, ih]
        simp [hm, Ne.symm hk]
      · rw [if_neg hm] at ih
        simp only [setAssoc, if_neg hk, List.map_cons, ih]
        simp [hm, Ne.symm hk]

theorem keys_setAssoc_nodup (l : List (String × Nat)) (m : String) (v : Nat)
    (h : (l.map Prod.fst).Nodup) : ((setAssoc l m v).map Prod.fst).Nodup := by
  rw [keys_setAssoc]
  by_cases hm : m ∈ l.map Prod.fst
  · simpa [hm] using h
  · rw [if_neg hm]
    simp [List.nodup_append, h, hm]

theorem lookupAssoc_eq_none_of_not_mem {l : List (String × Nat)} {m : String}
    (h : m ∉ l.map Prod.fst) : lookupAssoc l m = none := by
  induction l with
  | nil => rfl
  | cons q rest ih =>
    obtain ⟨k, u⟩ := q
    simp only [List.map_cons, List.mem_cons, not_or] at h
    simp only [lookupAssoc, if_neg (Ne.symm h.1)]
    exact ih h.2

theorem lookupAssoc_removeAssoc_self (l : List (String × Nat)) (m : String)
    (h : (l.map Prod.fst).Nodup) : lookupAssoc (removeAssoc l m) m = none := by
  induction l with
  | nil => rfl
  | cons q rest ih =>
    obtain ⟨k, u⟩ := q
    rw [List.map_cons, List.nodup_cons] at h
    by_cases hk : k = m
    · subst hk
      simp only [removeAssoc, if_pos rfl]
      exact lookupAssoc_eq_none_of_not_mem h.1
    · simp only [removeAssoc, if_neg hk, lookupAssoc, if_neg hk]
      exact ih h.2

theorem mem_values_setAssoc {l : List (String × Nat)} {m : String} {v v' : Nat}
    (h : v' ∈ (setAssoc l m v).map Prod.snd) : v' = v ∨ v' ∈ l.map Prod.snd := by
  induction l with
  | nil => simpa [setAssoc] using h
  | cons q rest ih =>
    obtain ⟨k, u⟩ := q
    by_cases hk : k = m
    · simp only [setAssoc, if_pos hk, List.map_cons, List.mem_cons] at h
      rcases h with h | h
      · exact Or.inl h
      · exact Or.inr (by simp [h])
    · simp only [setAssoc, if_neg hk, List.map_cons, List.mem_cons] at h
      rcases h with h | h
      · exact Or.inr (by simp [h])
      · rcases ih h with h2 | h2
        · exact Or.inl h2
        · exact Or.inr (by simp [h2])

theorem mem_values_removeAssoc {l : List (String × Nat)} {m : String} {v' : Nat}
    (h : v' ∈ (removeAssoc l m).map Prod.snd) : v' ∈ l.map Prod.snd := by
  induction l with
  | nil => simpa [removeAssoc] using h
  | cons q rest ih =>
    obtain ⟨k, u⟩ := q
    by_cases hk : k = m
    · simp only [removeAssoc, if_pos hk] at h
      simp [h]
    · simp only [removeAssoc, if_neg hk, List.map_cons, List.mem_cons] at h
      rcases h with h | h
      · simp [h]
      · simp [ih h]

theorem lookupAssoc_mem_values {l : List (String × Nat)} {m : String} {v : Nat}
    (h : lookupAssoc l m = some v) : v ∈ l.map Prod.snd := by
  induction l with
  | nil => simp [lookupAssoc] at h
  | cons q rest ih =>
    obtain ⟨k, u⟩ := q
    by_cases hk : k = m
    · simp only [lookupAssoc, if_pos hk, Option.some.injEq] at h
      simp [h]
    · simp only [lookupAssoc, if_neg hk] at h
      simp [ih h]

/-! ## Abandonment: a future that left the dict unresolved stays unresolved -/

theorem resolveWaiter_eq_some {s : ProtoState} {m : String} {fid : Nat} (p : Params)
    (hfut : lookupAssoc s.notification_futures m = some fid) :
    resolveWaiter s m p =
      { s with
          notification_futures := removeAssoc s.notification_futures m,
          resolved := s.resolved ++ [(fid, p)] } := by
  unfold resolveWaiter
  rw [hfut]

theorem resolveWaiter_eq_none {s : ProtoState} {m : String} (p : Params)
    (hfut : lookupAssoc s.notification_futures m = none) :
    resolveWaiter s m p =
      { s with notification_futures := removeAssoc s.notification_futures m } := by
  unfold resolveWaiter
  rw [hfut]

theorem execHandler_futures (s : ProtoState) (m : String) (p : Params) :
    (execHandler s m p).notification_futures = s.notification_futures := by
  unfold execHandler
  split <;> rfl

theorem execHandler_resolved (s : ProtoState) (m : String) (p : Params) :
    (execHandler s m p).resolved = s.resolved := by
  unfold execHandler
  split <;> rfl

theorem execHandler_nextId (s : ProtoState) (m : String) (p : Params) :
    (execHandler s m p).nextId = s.nextId := by
  unfold execHandler
  split <;> rfl

theorem abandoned_execHandler {f : Nat} {s : ProtoState} (h : Abandoned f s)
    (m : String) (p : Params) : Abandoned f (execHandler s m p) := by
  obtain ⟨hvals, hres, hlt⟩ := h
  refine ⟨?_, ?_, ?_⟩
  · rw [execHandler_futures]
    exact hvals
  · rw [execHandler_resolved]
    exact hres
  · rw [execHandler_nextId]
    exact hlt

theorem abandoned_resolveWaiter {f : Nat} {s : ProtoState} (h : Abandoned f s)
    (m : String) (p : Params) : Abandoned f (resolveWaiter s m p) := by
  obtain ⟨hvals, hres, hlt⟩ := h
  rcases hfut : lookupAssoc s.notification_futures m with _ | fid
  · rw [resolveWaiter_eq_none p hfut]
    exact ⟨fun hmem => hvals (mem_values_removeAssoc hmem), hres, hlt⟩
  · have hfid : fid ≠ f := fun he => hvals (he ▸ lookupAssoc_mem_values hfut)
    rw [resolveWaiter_eq_some p hfut]
    refine ⟨fun hmem => hvals (mem_values_removeAssoc hmem), ?_, hlt⟩
    simp only [List.map_append, List.mem_append]
    rintro (hm | hm)
    · exact hres hm
    · simp only [List.map_cons, List.map_nil, List.mem_singleton] at hm
      exact hfid hm.symm

theorem abandoned_runOp {f : Nat} {s : ProtoState} (h : Abandoned f s) (op : Op) :
    Abandoned f (runOp s op) := by
  cases op with
  | wait m =>
    obtain ⟨hvals, hres, hlt⟩ := h
    refine ⟨?_, hres, ?_⟩
    · intro hmem
      rcases mem_values_setAssoc hmem with he | he
      · exact absurd he (Nat.ne_of_lt hlt)
      · exact hvals he
    · exact Nat.lt_succ_of_lt hlt
  | notify m p =>
    simp only [runOp, handle_notification]
    by_cases hc : m = CANCEL_REQUEST
    · obtain ⟨hvals, hres, hlt⟩ := h
      simp only [if_pos hc]
      exact ⟨hvals, hres, hlt⟩
    · simp only [if_neg hc]
      exact abandoned_execHandler (abandoned_resolveWaiter h m p) m p

theorem abandoned_runOps {f : Nat} {s : ProtoState} (h : Abandoned f s) (ops : List Op) :
    Abandoned f (runOps s ops) := by
  induction ops generalizing s with
  | nil => exact h
  | cons op rest ih => exact ih (abandoned_runOp h op)

/-! ## Line-structure lemmas -/

theorem splitLines_ne_nil (text : List Char) : splitLines text ≠ [] := by
  cases text with
  | nil => simp [splitLines]
  | cons c rest =>
    simp only [splitLines]
    rcases h : splitLines rest with _ | ⟨l, ls⟩
    · simp
    · by_cases hc : c = '\n' <;> simp [hc]

theorem posFromOffsetLoop_line_lt (ls : List (List Char)) :
    ∀ (n off : Nat), ls ≠ [] → (posFromOffsetLoop n off ls).line < n + ls.length := by
  induction ls with
  | nil => intro n off h; exact absurd rfl h
  | cons l rest ih =>
    intro n off _
    cases rest with
    | nil =>
      simp only [posFromOffsetLoop]
      split <;> simp
    | cons l2 ls2 =>
      simp only [posFromOffsetLoop]
      split
      · simp
      · have := ih (n + 1) (off - l.length) (by simp)
        simp only [List.length_cons] at this ⊢
        omega

/-! ## Versions sent by the document model -/

theorem runChanges_versions (n : Nat) :
    ∀ d : SlangDocState, (runChanges d n).2 = List.range' d.next_version n := by
  induction n with
  | zero => intro d; rfl
  | succ n ih =>
    intro d
    simp [runChanges, onChange, ih, List.range']

/-! ## Claim theorems -/

/-- C10: `positionFromOffset` is total — for every buffer and every
non-negative offset, including offsets beyond the text length, it returns a
`Position` (totality is by construction in this embedding: the Lean
translation is a structurally recursive total function, matching the Python
loop which never indexes and always leaves `_line_no` bound because
`split` returns at least one line) whose line is strictly below the number
of lines of the buffer and whose character is non-negative. -/
theorem C10_positionFromOffset_total (text : List Char) (offset : Nat) :
    (positionFromOffset text offset).line < (splitLines text).length ∧
      0 ≤ (positionFromOffset text offset).character := by
  refine ⟨?_, Nat.zero_le _⟩
  have h := posFromOffsetLoop_line_lt (splitLines text) 0 offset (splitLines_ne_nil text)
  simpa using h

/-- C5: the open notification carries version 0, and over any number of
subsequent changes the versions carried by the change notifications are
exactly 1, 2, 3, …: the k-th change (open counting as change 0) carries
version k, i.e. the counter starts at 0 at open and each change sent
increments the version by exactly 1. -/
theorem C5_version_counter (t : List Char) (n : Nat) :
    (openText t).1 = 0 ∧ (runChanges (openText t).2 n).2 = List.range' 1 n :=
  ⟨rfl, runChanges_versions n (openText t).2⟩

/-- C2 fails on the code: `positionFromOffset` subtracts only each line's
length, never the newline terminator, and breaks only on a strict
inequality, so already for the single-line buffer "ab" the end-of-text
offset 2 is mapped to position (0,0), which the spec's position→offset
conversion sends back to 0, not 2.  (The same slip misplaces every offset
at or past the end of the first line, e.g. offset 3 in "ab\ncd" maps to
(1,1) whose offset is 4.) -/
theorem C2_roundtrip_fails_at_end_of_text :
    positionFromOffset ['a', 'b'] 2 = ⟨0, 0⟩ ∧
      offsetFromPositionSpec (splitLines ['a', 'b']) (positionFromOffset ['a', 'b'] 2) = 0 ∧
      offsetFromPositionSpec (splitLines ['a', 'b']) (positionFromOffset ['a', 'b'] 2) ≠ 2 := by
  refine ⟨rfl, rfl, ?_⟩
  decide

/-- C3 as stated is false: the fixture's release code is a plain sequence
with no `try`/`finally`, so when `shutdown_async` raises, neither `exit`
nor `stop` is attempted. -/
theorem C3_counterexample :
    (fixtureTeardown false ⟨false, true, true⟩).1 = ["shutdown"] ∧
      "exit" ∉ (fixtureTeardown false ⟨false, true, true⟩).1 ∧
      "stop" ∉ (fixtureTeardown false ⟨false, true, true⟩).1 := by
  refine ⟨rfl, ?_, ?_⟩ <;> decide

/-- C3 amended: on release the steps shutdown, exit, stop are issued in that
order and independently of whether the test body succeeded or raised, but
they are not individually best-effort: each step is attempted only while
all earlier steps succeeded, and in particular a shutdown failure stops the
release after the shutdown attempt. -/
theorem C3_release_sequence (br br2 : Bool) (b : ReleaseBehavior) :
    fixtureTeardown br b = fixtureTeardown br2 b ∧
      "shutdown" ∈ (fixtureTeardown br b).1 ∧
      (b.shutdownOk = true → "exit" ∈ (fixtureTeardown br b).1) ∧
      (b.shutdownOk = true → b.exitOk = true → "stop" ∈ (fixtureTeardown br b).1) ∧
      (b.shutdownOk = false → (fixtureTeardown br b).1 = ["shutdown"]) := by
  obtain ⟨sd, ex, st⟩ := b
  cases sd <;> cases ex <;> cases st <;>
    simp [fixtureTeardown, fixtureRelease]

/-- Witness for C3_release_sequence at a concrete behavior: with every step
succeeding, `stop` is among the attempted steps. -/
theorem C3_release_sequence_witness :
    "stop" ∈ (fixtureTeardown false ⟨true, true, true⟩).1 :=
  (C3_release_sequence false true ⟨true, true, true⟩).2.2.2.1 rfl rfl

/-- C8: a `$/cancelRequest` notification is forwarded to the base protocol's
cancellation bookkeeping with the notification's `id`, and it is not treated
as a generic notification: the pending-waiter dict is unchanged, no waiter
is resolved, and no regular handler runs. -/
theorem C8_cancel_routed (s : ProtoState) (p : Params) :
    (handle_notification s CANCEL_REQUEST p).cancels = s.cancels ++ [p.id] ∧
      (handle_notification s CANCEL_REQUEST p).notification_futures = s.notification_futures ∧
      (handle_notification s CANCEL_REQUEST p).resolved = s.resolved ∧
      (handle_notification s CANCEL_REQUEST p).handled = s.handled := by
  refine ⟨?_, ?_, ?_, ?_⟩ <;> simp [handle_notification]

/-- C9: when a non-cancellation notification's method has both a pending
waiter and a registered handler, dispatch delivers the message twice — the
waiting future is resolved with the notification's parameters and the
regular handler is invoked with the same parameters. -/
theorem C9_double_delivery (s : ProtoState) (M : String) (p : Params) (fid : Nat)
    (hM : M ≠ CANCEL_REQUEST)
    (hw : lookupAssoc s.notification_futures M = some fid)
    (hh : s.handlers.contains M = true) :
    (fid, p) ∈ (handle_notification s M p).resolved ∧
      (M, p) ∈ (handle_notification s M p).handled := by
  unfold handle_notification
  rw [if_neg hM, resolveWaiter_eq_some p hw]
  have hh2 : M ∈ s.handlers := by simpa using hh
  simp [execHandler, hh2]

/-- Witness for C9_double_delivery: a state with a pending waiter and a
registered handler for method "m". -/
theorem C9_double_delivery_witness :
    ((0 : Nat), (⟨0, 5⟩ : Params)) ∈
        (handle_notification ⟨[("m", 0)], 1, [], [], [], ["m"], []⟩ "m" ⟨0, 5⟩).resolved ∧
      ("m", (⟨0, 5⟩ : Params)) ∈
        (handle_notification ⟨[("m", 0)], 1, [], [], [], ["m"], []⟩ "m" ⟨0, 5⟩).handled :=
  C9_double_delivery ⟨[("m", 0)], 1, [], [], [], ["m"], []⟩ "m" ⟨0, 5⟩ 0
    (by decide) (by decide) (by decide)

/-- C6: a waiter registered for M before an M-notification is dispatched is
resolved with that notification's exact parameters and removed from the
dict; it is resolved exactly once — after the resolving dispatch no entry
for M remains, and a second M-notification does not resolve the future
again. -/
theorem C6_waiter_resolved_exactly_once (s0 : ProtoState) (M : String) (p p2 : Params)
    (hwf : WF s0) (hM : M ≠ CANCEL_REQUEST) :
    ((handle_notification (wait_for_notification s0 M).1 M p).resolved.filter
        (fun q => q.1 == (wait_for_notification s0 M).2)) =
      [((wait_for_notification s0 M).2, p)] ∧
      lookupAssoc (handle_notification (wait_for_notification s0 M).1 M p).notification_futures
        M = none ∧
      ((handle_notification (handle_notification (wait_for_notification s0 M).1 M p) M
          p2).resolved.filter (fun q => q.1 == (wait_for_notification s0 M).2)) =
      [((wait_for_notification s0 M).2, p)] := by
  obtain ⟨hkeys, hvnd, hvlt, hrlt⟩ := hwf
  simp only [wait_for_notification]
  have hlook : lookupAssoc (setAssoc s0.notification_futures M s0.nextId) M = some s0.nextId :=
    lookupAssoc_setAssoc_self _ _ _
  have e1 : handle_notification
      { s0 with
          nextId := s0.nextId + 1,
          notification_futures := setAssoc s0.notification_futures M s0.nextId } M p
      = execHandler
          { s0 with
              nextId := s0.nextId + 1,
              notification_futures := removeAssoc (setAssoc s0.notification_futures M s0.nextId) M,
              resolved := s0.resolved ++ [(s0.nextId, p)] } M p := by
    unfold handle_notification
    rw [if_neg hM, resolveWaiter_eq_some p hlook]
  rw [e1]
  have hfilter : (s0.resolved ++ [(s0.nextId, p)]).filter (fun q => q.1 == s0.nextId) =
      [(s0.nextId, p)] := by
    rw [List.filter_append]
    have hnil : s0.resolved.filter (fun q => q.1 == s0.nextId) = [] := by
      rw [List.filter_eq_nil_iff]
      intro q hq
      have hlt := hrlt q hq
      simp [Nat.ne_of_lt hlt]
    rw [hnil]
    simp
  have hlook2 : lookupAssoc
      (execHandler
        { s0 with
            nextId := s0.nextId + 1,
            notification_futures := removeAssoc (setAssoc s0.notification_futures M s0.nextId) M,
            resolved := s0.resolved ++ [(s0.nextId, p)] } M p).notification_futures M = none := by
    rw [execHandler_futures]
    exact lookupAssoc_removeAssoc_self _ _ (keys_setAssoc_nodup _ _ _ hkeys)
  refine ⟨?_, hlook2, ?_⟩
  · rw [execHandler_resolved]
    exact hfilter
  · have e2 : handle_notification
        (execHandler
          { s0 with
              nextId := s0.nextId + 1,
              notification_futures :=
                removeAssoc (setAssoc s0.notification_futures M s0.nextId) M,
              resolved := s0.resolved ++ [(s0.nextId, p)] } M p) M p2
        = execHandler
            { (execHandler
                { s0 with
                    nextId := s0.nextId + 1,
                    notification_futures :=
                      removeAssoc (setAssoc s0.notification_futures M s0.nextId) M,
                    resolved := s0.resolved ++ [(s0.nextId, p)] } M p) with
                notification_futures :=
                  removeAssoc
                    (execHandler
                      { s0 with
                          nextId := s0.nextId + 1,
                          notification_futures :=
                            removeAssoc (setAssoc s0.notification_futures M s0.nextId) M,
                          resolved := s0.resolved ++ [(s0.nextId, p)] } M
                        p).notification_futures M } M p2 := by
      unfold handle_notification
      rw [if_neg hM, resolveWaiter_eq_none p2 hlook2]
    rw [e2, execHandler_resolved]
    show ((execHandler
        { s0 with
            nextId := s0.nextId + 1,
            notification_futures := removeAssoc (setAssoc s0.notification_futures M s0.nextId) M,
            resolved := s0.resolved ++ [(s0.nextId, p)] } M p).resolved.filter
      (fun q => q.1 == s0.nextId)) = [(s0.nextId, p)]
    rw [execHandler_resolved]
    exact hfilter

/-- Witness for C6_waiter_resolved_exactly_once: register on a fresh
protocol, dispatch "m" twice. -/
theorem C6_waiter_resolved_exactly_once_witness :
    ((handle_notification (wait_for_notification initialProto "m").1 "m" ⟨0, 1⟩).resolved.filter
        (fun q => q.1 == (wait_for_notification initialProto "m").2)) =
      [((wait_for_notification initialProto "m").2, ⟨0, 1⟩)] ∧
      lookupAssoc (handle_notification (wait_for_notification initialProto "m").1 "m"
          ⟨0, 1⟩).notification_futures "m" = none ∧
      ((handle_notification (handle_notification (wait_for_notification initialProto "m").1 "m"
            ⟨0, 1⟩) "m" ⟨0, 2⟩).resolved.filter
        (fun q => q.1 == (wait_for_notification initialProto "m").2)) =
      [((wait_for_notification initialProto "m").2, ⟨0, 1⟩)] :=
  C6_waiter_resolved_exactly_once initialProto "m" ⟨0, 1⟩ ⟨0, 2⟩
    (by unfold WF; decide) (by decide)

/-- C7: registering a second wait for the same method replaces the stored
waiter — the dict still has unique method keys, the method maps to the
second future, the next matching notification resolves the second future,
and the first future is never resolved by any subsequent sequence of
registrations and dispatches. -/
theorem C7_reregistration_replaces (s0 : ProtoState) (M : String) (p : Params)
    (hwf : WF s0) (hM : M ≠ CANCEL_REQUEST) :
    lookupAssoc
        ((wait_for_notification (wait_for_notification s0 M).1 M).1).notification_futures M =
      some (wait_for_notification (wait_for_notification s0 M).1 M).2 ∧
      ((((wait_for_notification (wait_for_notification s0 M).1 M).1).notification_futures).map
        Prod.fst).Nodup ∧
      ((wait_for_notification (wait_for_notification s0 M).1 M).2, p) ∈
        (handle_notification (wait_for_notification (wait_for_notification s0 M).1 M).1 M
          p).resolved ∧
      ∀ ops : List Op,
        (wait_for_notification s0 M).2 ∉
          ((runOps (wait_for_notification (wait_for_notification s0 M).1 M).1 ops).resolved).map
            Prod.fst := by
  obtain ⟨hkeys, hvnd, hvlt, hrlt⟩ := hwf
  simp only [wait_for_notification]
  have hlook : lookupAssoc
      (setAssoc (setAssoc s0.notification_futures M s0.nextId) M (s0.nextId + 1)) M =
      some (s0.nextId + 1) := lookupAssoc_setAssoc_self _ _ _
  refine ⟨hlook, keys_setAssoc_nodup _ _ _ (keys_setAssoc_nodup _ _ _ hkeys), ?_, ?_⟩
  · have e1 : handle_notification
        { s0 with
            nextId := s0.nextId + 1 + 1,
            notification_futures :=
              setAssoc (setAssoc s0.notification_futures M s0.nextId) M (s0.nextId + 1) } M p
        = execHandler
            { s0 with
                nextId := s0.nextId + 1 + 1,
                notification_futures :=
                  removeAssoc
                    (setAssoc (setAssoc s0.notification_futures M s0.nextId) M (s0.nextId + 1)) M,
                resolved := s0.resolved ++ [(s0.nextId + 1, p)] } M p := by
      unfold handle_notification
      rw [if_neg hM, resolveWaiter_eq_some p hlook]
    rw [e1, execHandler_resolved]
    simp
  · have hab : Abandoned s0.nextId
        { s0 with
            nextId := s0.nextId + 1 + 1,
            notification_futures :=
              setAssoc (setAssoc s0.notification_futures M s0.nextId) M (s0.nextId + 1) } := by
      refine ⟨?_, ?_, ?_⟩
      · show s0.nextId ∉
            (setAssoc (setAssoc s0.notification_futures M s0.nextId) M (s0.nextId + 1)).map
              Prod.snd
        rw [setAssoc_setAssoc]
        intro hmem
        rcases mem_values_setAssoc hmem with he | he
        · omega
        · obtain ⟨q, hq, hq2⟩ := List.mem_map.mp he
          have := hvlt q hq
          omega
      · show s0.nextId ∉ s0.resolved.map Prod.fst
        intro hmem
        obtain ⟨q, hq, hq2⟩ := List.mem_map.mp hmem
        have := hrlt q hq
        omega
      · show s0.nextId < s0.nextId + 1 + 1
        omega
    exact fun ops => (abandoned_runOps hab ops).2.1

/-- Witness for C7_reregistration_replaces: double-register "m" on a fresh
protocol. -/
theorem C7_reregistration_replaces_witness :
    lookupAssoc
        ((wait_for_notification (wait_for_notification initialProto "m").1
            "m").1).notification_futures "m" =
      some (wait_for_notification (wait_for_notification initialProto "m").1 "m").2 ∧
      ((((wait_for_notification (wait_for_notification initialProto "m").1
            "m").1).notification_futures).map Prod.fst).Nodup ∧
      ((wait_for_notification (wait_for_notification initialProto "m").1 "m").2,
          (⟨0, 3⟩ : Params)) ∈
        (handle_notification (wait_for_notification (wait_for_notification initialProto "m").1
            "m").1 "m" ⟨0, 3⟩).resolved ∧
      ∀ ops : List Op,
        (wait_for_notification initialProto "m").2 ∉
          ((runOps (wait_for_notification (wait_for_notification initialProto "m").1 "m").1
            ops).resolved).map Prod.fst :=
  C7_reregistration_replaces initialProto "m" ⟨0, 3⟩ (by unfold WF; decide) (by decide)

/-- C4 fails on the code: dispatching `textDocument/publishDiagnostics`,
`window/showMessage` and `window/logMessage` notifications to a fresh
client leaves `diagnostics`, `messages` and `log_messages` all empty, and
no handler is invoked at all — the attributes are declared in
`SlangClient.__init__` but no feature handler that would populate them is
registered anywhere in the repository, so the notifications are dropped
with only a warning (the no-waiter case is indeed not an error, but
nothing is recorded in the logs). -/
theorem C4_logs_never_updated :
    (clientHandleNotification
        (clientHandleNotification
          (clientHandleNotification initialClient TEXT_DOCUMENT_PUBLISH_DIAGNOSTICS ⟨0, 7⟩)
          WINDOW_SHOW_MESSAGE ⟨0, 8⟩)
        WINDOW_LOG_MESSAGE ⟨0, 9⟩).diagnostics = [] ∧
      (clientHandleNotification
        (clientHandleNotification
          (clientHandleNotification initialClient TEXT_DOCUMENT_PUBLISH_DIAGNOSTICS ⟨0, 7⟩)
          WINDOW_SHOW_MESSAGE ⟨0, 8⟩)
        WINDOW_LOG_MESSAGE ⟨0, 9⟩).messages = [] ∧
      (clientHandleNotification
        (clientHandleNotification
          (clientHandleNotification initialClient TEXT_DOCUMENT_PUBLISH_DIAGNOSTICS ⟨0, 7⟩)
          WINDOW_SHOW_MESSAGE ⟨0, 8⟩)
        WINDOW_LOG_MESSAGE ⟨0, 9⟩).log_messages = [] ∧
      (clientHandleNotification
        (clientHandleNotification
          (clientHandleNotification initialClient TEXT_DOCUMENT_PUBLISH_DIAGNOSTICS ⟨0, 7⟩)
          WINDOW_SHOW_MESSAGE ⟨0, 8⟩)
        WINDOW_LOG_MESSAGE ⟨0, 9⟩).proto.handled = [] := by
  decide

/-- C1 fails on the code: a waiter for `textDocument/publishDiagnostics`
pending at the moment the server process terminates is neither completed
with an error nor resolved — no code path in the repository touches
`_notification_futures` on process termination, so the entry survives and
the awaiter hangs. -/
theorem C1_pending_waiter_survives_termination :
    lookupAssoc (onProcessTermination
        (wait_for_notification initialProto
          TEXT_DOCUMENT_PUBLISH_DIAGNOSTICS).1).notification_futures
        TEXT_DOCUMENT_PUBLISH_DIAGNOSTICS =
      some (wait_for_notification initialProto TEXT_DOCUMENT_PUBLISH_DIAGNOSTICS).2 ∧
      (wait_for_notification initialProto TEXT_DOCUMENT_PUBLISH_DIAGNOSTICS).2 ∉
        (onProcessTermination
          (wait_for_notification initialProto TEXT_DOCUMENT_PUBLISH_DIAGNOSTICS).1).failed ∧
      (wait_for_notification initialProto TEXT_DOCUMENT_PUBLISH_DIAGNOSTICS).2 ∉
        ((onProcessTermination
          (wait_for_notification initialProto
            TEXT_DOCUMENT_PUBLISH_DIAGNOSTICS).1).resolved).map Prod.fst := by
  decide
